import Mathlib

/-!
Shallow embedding of the Kismet microhttpd request-dispatch and session layer
(src/kis_net_microhttpd.h).  The header ships declarations for most of the
server class; the inline code it does contain (the connection constructor,
the cached-variable accessors, the session record) is translated directly,
and the operations whose implementations live outside the header are
modelled from the specification, as marked in each doc comment.
Times are modelled as natural-number seconds.
-/

set_option maxHeartbeats 1000000

/-- Session record, translated from `kis_net_httpd_session`
(src/kis_net_microhttpd.h lines 158-171): session id, creation time,
last-seen time, and lifetime after last activity. -/
structure kis_net_httpd_session where
  sessionid : String
  session_created : Nat
  session_seen : Nat
  session_lifetime : Nat
deriving Repr, DecidableEq

/-- Modelled from the spec: the session-freshness check used by the session
store (the implementation of session validation is not in the header).
A session is valid iff `now <= last_seen + validity_duration`. -/
def session_valid (now : Nat) (s : kis_net_httpd_session) : Bool :=
  decide (now ≤ s.session_seen + s.session_lifetime)

/-- Association-list lookup keyed by string, modelling `std::map::find`:
returns the value stored at the first matching key. -/
def map_lookup {α : Type} (k : String) : List (String × α) → Option α
  | [] => none
  | (k2, v) :: rest => if k2 = k then some v else map_lookup k rest

/-- Association-list insert-or-assign keyed by string, modelling
`std::map` insertion: replaces the first binding of the key, or appends
a new binding at the end. -/
def map_insert {α : Type} (k : String) (v : α) : List (String × α) → List (String × α)
  | [] => [(k, v)]
  | (k2, v2) :: rest => if k2 = k then (k, v) :: rest else (k2, v2) :: map_insert k v rest

/-- Association-list erase keyed by string, modelling `std::map::erase`:
removes the first binding of the key if present. -/
def map_erase {α : Type} (k : String) : List (String × α) → List (String × α)
  | [] => []
  | (k2, v2) :: rest => if k2 = k then rest else (k2, v2) :: map_erase k rest

/-- Handler, abstracting `kis_net_httpd_handler`: an identity tag plus the
`httpd_verify_path` match predicate from the handler contract
(src/kis_net_microhttpd.h lines 190, 222, 251, 281, 313). -/
structure kis_net_httpd_handler where
  hid : Nat
  httpd_verify_path : String → String → Bool

/-- Server state, from the `kis_net_httpd` members
(src/kis_net_microhttpd.h lines 421, 424, 436, 480): the unauthenticated
and authenticated handler vectors, the alias rewrite map, and the session
map. -/
structure kis_net_httpd where
  unauth_handler_vec : List kis_net_httpd_handler
  handler_vec : List kis_net_httpd_handler
  alias_rewrite_map : List (String × String)
  session_map : List (String × kis_net_httpd_session)

/-- Modelled from the spec: `RegisterHandler` (declared at
src/kis_net_microhttpd.h line 358, implementation not in the header)
appends the handler to the authenticated handler list. -/
def RegisterHandler (httpd : kis_net_httpd) (h : kis_net_httpd_handler) : kis_net_httpd :=
  { httpd with handler_vec := httpd.handler_vec ++ [h] }

/-- Modelled from the spec: `RegisterUnauthHandler` (declared at
src/kis_net_microhttpd.h line 362, implementation not in the header)
appends the handler to the unauthenticated handler list. -/
def RegisterUnauthHandler (httpd : kis_net_httpd) (h : kis_net_httpd_handler) : kis_net_httpd :=
  { httpd with unauth_handler_vec := httpd.unauth_handler_vec ++ [h] }

/-- Modelled from the spec: `RegisterAlias` (declared at
src/kis_net_microhttpd.h line 375, implementation not in the header)
records an exact path-to-path rewrite in `alias_rewrite_map`. -/
def RegisterAlias (httpd : kis_net_httpd) (in_alias in_dest : String) : kis_net_httpd :=
  { httpd with alias_rewrite_map := map_insert in_alias in_dest httpd.alias_rewrite_map }

/-- Modelled from the spec: alias resolution before handler matching
(the dispatch implementation is not in the header; the header declares
only the single `alias_rewrite_map`).  Applies at most one rewrite: a
single lookup in the alias table, taking the destination as-is. -/
def resolve_alias (httpd : kis_net_httpd) (p : String) : String :=
  match map_lookup p httpd.alias_rewrite_map with
  | some d => d
  | none => p

/-- Scan of a handler list: the first handler whose `httpd_verify_path`
predicate accepts the path and method.  Modelled from the spec (the
matching loop is not in the header). -/
def hfind (p m : String) : List kis_net_httpd_handler → Option kis_net_httpd_handler
  | [] => none
  | h :: rest => if h.httpd_verify_path p m then some h else hfind p m rest

/-- Modelled from the spec: handler matching scans the unauthenticated
list first, then the authenticated list, returning the first handler
whose match predicate accepts. -/
def find_handler (httpd : kis_net_httpd) (p m : String) : Option kis_net_httpd_handler :=
  match hfind p m httpd.unauth_handler_vec with
  | some h => some h
  | none => hfind p m httpd.handler_vec

/-- Inbound request as the dispatcher sees it: URL, method, and the three
authentication facts consulted by `HasValidSession` (valid session cookie,
valid basic-auth credentials, implicit local allow). -/
structure http_request where
  url : String
  method : String
  valid_session_cookie : Bool
  valid_basic_auth : Bool
  local_allow : Bool

/-- Modelled from the spec: `HasValidSession` (declared at
src/kis_net_microhttpd.h line 380, implementation not in the header)
checks, first success wins: (1) valid session cookie, (2) basic-auth
credentials, (3) implicit local allow. -/
def HasValidSession (req : http_request) : Bool :=
  req.valid_session_cookie || req.valid_basic_auth || req.local_allow

def MHD_HTTP_OK : Nat := 200

def MHD_HTTP_UNAUTHORIZED : Nat := 401

def MHD_HTTP_NOT_FOUND : Nat := 404

/-- Modelled from the spec: the dispatch core of `http_request_handler`
(declared at src/kis_net_microhttpd.h lines 455-457, implementation not in
the header).  Alias resolution is applied first, then the unauthenticated
list is scanned, then the authenticated list; a handler from the
authenticated list runs only when `HasValidSession` holds, otherwise an
authentication-challenge status is returned.  The second component lists
the ids of the handlers whose `httpd_create_stream_response` was invoked. -/
def http_request_handler (httpd : kis_net_httpd) (req : http_request) : Nat × List Nat :=
  let p := resolve_alias httpd req.url
  match hfind p req.method httpd.unauth_handler_vec with
  | some h => (MHD_HTTP_OK, [h.hid])
  | none =>
    match hfind p req.method httpd.handler_vec with
    | some h =>
      if HasValidSession req then (MHD_HTTP_OK, [h.hid])
      else (MHD_HTTP_UNAUTHORIZED, [])
    | none => (MHD_HTTP_NOT_FOUND, [])

/-- Modelled from the spec: `FindSession` (declared at
src/kis_net_microhttpd.h line 477, implementation not in the header, but
whose header comment states it returns a session, or nothing when no
session key is found or the session is expired).  Under the session lock:
absent key returns not-found; an expired session is removed and not-found
is returned; otherwise the last-seen time is updated to now and the
session returned.  Returns the result and the updated session map. -/
def FindSession (now : Nat) (key : String) (m : List (String × kis_net_httpd_session)) :
    Option kis_net_httpd_session × List (String × kis_net_httpd_session) :=
  match map_lookup key m with
  | none => (none, m)
  | some s =>
    if session_valid now s then
      (some { s with session_seen := now }, map_insert key { s with session_seen := now } m)
    else
      (none, map_erase key m)

/-- Modelled from the spec: `WriteSessions` (declared at
src/kis_net_microhttpd.h line 478, implementation not in the header)
serializes all non-expired sessions to durable storage; the on-disk record
keeps token, creation time, last-seen time and lifetime. -/
def WriteSessions (now : Nat) (m : List (String × kis_net_httpd_session)) :
    List (String × kis_net_httpd_session) :=
  m.filter (fun kv => session_valid now kv.2)

/-- Modelled from the spec: reading the session store at startup (the
implementation is not in the header) repopulates the in-memory table,
discarding expired entries on load. -/
def LoadSessions (now : Nat) (recs : List (String × kis_net_httpd_session)) :
    List (String × kis_net_httpd_session) :=
  recs.filter (fun kv => session_valid now kv.2)

def CONNECTION_GET : Nat := 0

def CONNECTION_POST : Nat := 1

/-- Connection context, translated from `kis_net_httpd_connection`
(src/kis_net_microhttpd.h lines 68-156).  Pointers become options; the
per-key stringstreams of `variable_cache` become the accumulated string
contents; the raw transport pointers are out of scope. -/
structure kis_net_httpd_connection where
  response_stream : String
  variable_cache : List (String × String)
  optional_filename : String
  httpcode : Nat
  url : String
  mime_url : String
  post_complete : Bool
  connection_type : Nat
  httpdhandler : Option kis_net_httpd_handler
  session : Option kis_net_httpd_session

/-- The connection constructor, translated from
`kis_net_httpd_connection::kis_net_httpd_connection`
(src/kis_net_microhttpd.h lines 75-86): status 200, POST not complete,
GET connection type, no handler, no session; the member containers are
default-constructed empty. -/
def kis_net_httpd_connection_init : kis_net_httpd_connection :=
  { response_stream := ""
  , variable_cache := []
  , optional_filename := ""
  , httpcode := 200
  , url := ""
  , mime_url := ""
  , post_complete := false
  , connection_type := CONNECTION_GET
  , httpdhandler := none
  , session := none }

/-- `kishttpd::escape_html` is declared at src/kis_net_microhttpd.h line 52
with no body in the header; it only shapes the text of error messages here,
so it is modelled as the identity string transformation. -/
def escape_html (s : String) : String := s

/-- `has_cached_variable`, translated from src/kis_net_microhttpd.h lines
94-96: whether the key is present in the variable cache. -/
def has_cached_variable (conn : kis_net_httpd_connection) (key : String) : Bool :=
  (map_lookup key conn.variable_cache).isSome

/-- `variable_cache_as<T>`, translated from src/kis_net_microhttpd.h lines
98-113.  The stream extraction `*v->second >> t` together with the
`fail()` test is modelled by `read_as`, the type-directed conversion that
returns `none` exactly when extraction fails.  A missing key and a failed
conversion both raise `std::runtime_error`; both become `Except.error`
carrying the corresponding message text. -/
def variable_cache_as {T : Type} (read_as : String → Option T)
    (conn : kis_net_httpd_connection) (key : String) : Except String T :=
  match map_lookup key conn.variable_cache with
  | none => Except.error ("variable " ++ escape_html key ++ " not found")
  | some v =>
    match read_as v with
    | none => Except.error ("unable to convert value of " ++ escape_html key)
    | some t => Except.ok t

def KIS_SESSION_COOKIE : String := "KISMET"

/-- Modelled from the spec: `AddSession` (declared at
src/kis_net_microhttpd.h line 472, implementation not in the header)
stores the session in the session map under its token. -/
def AddSession (s : kis_net_httpd_session) (m : List (String × kis_net_httpd_session)) :
    List (String × kis_net_httpd_session) :=
  map_insert s.sessionid s m

/-- Modelled from the spec and the header comment at
src/kis_net_microhttpd.h lines 382-385: `CreateSession` creates a session
record (creation and last-seen times set to now) and stores it; if the
connection is not null the session is inserted into the connection; if the
response is not null the session cookie is appended to the response
headers.  The random token generation is outside the model, so the token
is a parameter.  Returns the updated server state, connection, response
headers, and the new session. -/
def CreateSession (now : Nat) (token : String) (httpd : kis_net_httpd)
    (conn : Option kis_net_httpd_connection) (resp : Option (List String))
    (in_lifetime : Nat) :
    kis_net_httpd × Option kis_net_httpd_connection × Option (List String) ×
      kis_net_httpd_session :=
  let s : kis_net_httpd_session :=
    { sessionid := token, session_created := now, session_seen := now
    , session_lifetime := in_lifetime }
  ( { httpd with session_map := AddSession s httpd.session_map }
  , conn.map (fun c => { c with session := some s })
  , resp.map (fun hs => hs ++ [KIS_SESSION_COOKIE ++ "=" ++ token])
  , s )

/-- Modelled from the spec: the url-encoded POST body decoder behind
`http_post_handler` (declared at src/kis_net_microhttpd.h lines 465-468,
implementation not in the header) splits the body into `key=value` pairs
at ampersand boundaries.  `split_amp` is the batch split of a complete
body into its ampersand-separated parts. -/
def split_amp : List Char → List (List Char)
  | [] => [[]]
  | c :: rest =>
    if c = '&' then
      [] :: split_amp rest
    else
      match split_amp rest with
      | [] => [[c]]
      | r :: rs => (c :: r) :: rs

/-- Split a `key=value` part at the first equals sign into key and value. -/
def split_eq : List Char → List Char × List Char
  | [] => ([], [])
  | c :: rest =>
    if c = '=' then ([], rest)
    else
      let kv := split_eq rest
      (c :: kv.1, kv.2)

/-- Batch decode of a complete POST body into the cached-variable mapping. -/
def decode_post (s : List Char) : List (List Char × List Char) :=
  (split_amp s).map split_eq

/-- Last part of a split (never empty for the output of `split_amp`). -/
def last_part : List (List Char) → List Char
  | [] => []
  | [x] => x
  | _ :: xs => last_part xs

/-- All parts of a split except the last. -/
def drop_last_part : List (List Char) → List (List Char)
  | [] => []
  | [_] => []
  | x :: xs => x :: drop_last_part xs

/-- Incremental POST decoding state: the pending bytes after the last
ampersand boundary seen so far, and the complete pairs already emitted
into the cached-variable mapping. -/
structure post_state where
  pending : List Char
  emitted : List (List Char)
deriving Repr, DecidableEq

/-- Initial POST decoding state for a fresh connection. -/
def post_init : post_state := { pending := [], emitted := [] }

/-- Modelled from the spec: one body-chunk callback of the incremental
url-encoded decoder (`http_post_handler`, implementation not in the
header).  The chunk is appended to the pending bytes, every complete
ampersand-terminated pair is emitted, and the trailing partial pair is
kept pending for the next chunk. -/
def http_post_handler (st : post_state) (chunk : List Char) : post_state :=
  let parts := split_amp (st.pending ++ chunk)
  { pending := last_part parts, emitted := st.emitted ++ drop_last_part parts }

/-- Modelled from the spec: POST completion (`httpd_post_complete`)
finalizes the pending bytes as the last pair and yields the decoded
cached-variable mapping. -/
def httpd_post_complete (st : post_state) : List (List Char × List Char) :=
  (st.emitted ++ [st.pending]).map split_eq

/-! ### Association-map lemmas -/

theorem map_lookup_insert_self {α : Type} (k : String) (v : α) (m : List (String × α)) :
    map_lookup k (map_insert k v m) = some v := by
  induction m with
  | nil => simp [map_insert, map_lookup]
  | cons kv rest ih =>
    obtain ⟨k2, v2⟩ := kv
    by_cases h : k2 = k
    · simp [map_insert, map_lookup, h]
    · simp [map_insert, map_lookup, h, ih]

theorem map_lookup_none_of_not_mem {α : Type} (k : String) (m : List (String × α))
    (h : k ∉ m.map Prod.fst) : map_lookup k m = none := by
  induction m with
  | nil => simp [map_lookup]
  | cons kv rest ih =>
    obtain ⟨k2, v2⟩ := kv
    simp only [List.map_cons, List.mem_cons] at h
    push_neg at h
    have hne : ¬k2 = k := fun hh => h.1 hh.symm
    simp [map_lookup, hne, ih h.2]

theorem map_lookup_erase_self (k : String) (m : List (String × kis_net_httpd_session))
    (hnd : (m.map Prod.fst).Nodup) : map_lookup k (map_erase k m) = none := by
  induction m with
  | nil => simp [map_erase, map_lookup]
  | cons kv rest ih =>
    obtain ⟨k2, v2⟩ := kv
    simp only [List.map_cons, List.nodup_cons] at hnd
    by_cases h : k2 = k
    · subst h
      simpa [map_erase] using map_lookup_none_of_not_mem k2 rest hnd.1
    · simp [map_erase, map_lookup, h, ih hnd.2]

theorem map_lookup_filter_none {α : Type} (k : String) (p : String × α → Bool)
    (m : List (String × α)) (h : map_lookup k m = none) :
    map_lookup k (m.filter p) = none := by
  induction m with
  | nil => simp [map_lookup]
  | cons kv rest ih =>
    obtain ⟨k2, v2⟩ := kv
    simp only [map_lookup] at h
    by_cases hk : k2 = k
    · simp [hk] at h
    · rw [List.filter_cons]
      by_cases hp : p (k2, v2)
      · simp only [hk, if_false] at h
        simp [hp, map_lookup, hk, ih h]
      · simp only [hk, if_false] at h
        simp [hp, ih h]

theorem map_lookup_filter {α : Type} (k : String) (v : α) (p : String × α → Bool)
    (m : List (String × α)) (hnd : (m.map Prod.fst).Nodup)
    (h : map_lookup k m = some v) :
    map_lookup k (m.filter p) = if p (k, v) then some v else none := by
  induction m with
  | nil => simp [map_lookup] at h
  | cons kv rest ih =>
    obtain ⟨k2, v2⟩ := kv
    simp only [List.map_cons, List.nodup_cons] at hnd
    simp only [map_lookup] at h
    rw [List.filter_cons]
    by_cases hk : k2 = k
    · rw [if_pos hk] at h
      have hv : v2 = v := Option.some.inj h
      rw [hk, hv]
      have hrest : map_lookup k rest = none :=
        map_lookup_none_of_not_mem k rest (hk ▸ hnd.1)
      by_cases hp : p (k, v)
      · simp [hp, map_lookup]
      · simp [hp, map_lookup_filter_none k p rest hrest]
    · rw [if_neg hk] at h
      by_cases hp : p (k2, v2)
      · simp [hp, map_lookup, hk, ih hnd.2 h]
      · simp [hp, ih hnd.2 h]

theorem nodup_keys_filter {α : Type} (p : String × α → Bool) (m : List (String × α))
    (h : (m.map Prod.fst).Nodup) : ((m.filter p).map Prod.fst).Nodup :=
  h.sublist ((List.filter_sublist m).map Prod.fst)

/-! ### Handler-scan lemmas -/

theorem hfind_append (p m : String) (l1 l2 : List kis_net_httpd_handler) :
    hfind p m (l1 ++ l2) =
      match hfind p m l1 with
      | some h => some h
      | none => hfind p m l2 := by
  induction l1 with
  | nil => simp [hfind]
  | cons a l ih =>
    by_cases h : a.httpd_verify_path p m
    · simp [hfind, h]
    · simp [hfind, h, ih]

theorem find_handler_eq_scan (httpd : kis_net_httpd) (p m : String) :
    find_handler httpd p m = hfind p m (httpd.unauth_handler_vec ++ httpd.handler_vec) := by
  rw [hfind_append, find_handler]

theorem hfind_first (p m : String) (l1 : List kis_net_httpd_handler)
    (h1 : kis_net_httpd_handler) (l2 : List kis_net_httpd_handler)
    (hacc : h1.httpd_verify_path p m = true)
    (hrej : ∀ h0 ∈ l1, h0.httpd_verify_path p m = false) :
    hfind p m (l1 ++ h1 :: l2) = some h1 := by
  induction l1 with
  | nil => simp [hfind, hacc]
  | cons a l ih =>
    have ha : a.httpd_verify_path p m = false := hrej a (by simp)
    simp only [List.cons_append, hfind, ha, Bool.false_eq_true, if_false]
    exact ih (fun h0 hh => hrej h0 (by simp [hh]))

/-! ### POST-body split lemmas -/

theorem split_amp_ne_nil (s : List Char) : split_amp s ≠ [] := by
  cases s with
  | nil => simp [split_amp]
  | cons c rest =>
    by_cases hc : c = '&'
    · simp [split_amp, hc]
    · cases h : split_amp rest with
      | nil => simp [split_amp, hc, h]
      | cons r rs => simp [split_amp, hc, h]

theorem split_amp_amp_free (s : List Char) : ∀ q ∈ split_amp s, '&' ∉ q := by
  induction s with
  | nil =>
    intro q hq
    simp [split_amp] at hq
    simp [hq]
  | cons c rest ih =>
    intro q hq
    by_cases hc : c = '&'
    · simp [split_amp, hc] at hq
      rcases hq with hq | hq
      · simp [hq]
      · exact ih q hq
    · cases h : split_amp rest with
      | nil => exact absurd h (split_amp_ne_nil rest)
      | cons r rs =>
        simp [split_amp, hc, h] at hq
        rcases hq with hq | hq
        · subst hq
          intro hmem
          rcases List.mem_cons.mp hmem with h1 | h1
          · exact hc h1.symm
          · exact ih r (by simp [h]) h1
        · exact ih q (by simp [h, hq])


theorem split_amp_cons_amp (c : Char) (hc : c = '&') (z : List Char) :
    split_amp (c :: z) = [] :: split_amp z := by
  simp [split_amp, hc]

theorem split_amp_cons_ne (c : Char) (hc : ¬c = '&') (z r : List Char)
    (rs : List (List Char)) (hz : split_amp z = r :: rs) :
    split_amp (c :: z) = (c :: r) :: rs := by
  simp [split_amp, hc, hz]

theorem split_amp_append (y x : List Char) :
    ∀ l q, split_amp x = l ++ [q] → split_amp (x ++ y) = l ++ split_amp (q ++ y) := by
  induction x with
  | nil =>
    intro l q h
    simp only [split_amp] at h
    cases l with
    | nil =>
      simp only [List.nil_append, List.cons.injEq, and_true] at h
      rw [← h]
      simp
    | cons a l2 =>
      have hlen := congrArg List.length h
      simp at hlen
  | cons c rest ih =>
    intro l q h
    by_cases hc : c = '&'
    · rw [split_amp_cons_amp c hc rest] at h
      cases l with
      | nil =>
        exfalso
        simp only [List.nil_append, List.cons.injEq] at h
        exact split_amp_ne_nil rest h.2
      | cons a l2 =>
        simp only [List.cons_append, List.cons.injEq] at h
        obtain ⟨ha, hrest⟩ := h
        rw [List.cons_append, split_amp_cons_amp c hc (rest ++ y), ih l2 q hrest, ← ha]
        rfl
    · cases hsr : split_amp rest with
      | nil => exact absurd hsr (split_amp_ne_nil rest)
      | cons r rs =>
        rw [split_amp_cons_ne c hc rest r rs hsr] at h
        cases l with
        | nil =>
          simp only [List.nil_append, List.cons.injEq] at h
          obtain ⟨hq, hrs⟩ := h
          have hih := ih [] r (by rw [hsr, hrs]; rfl)
          simp only [List.nil_append] at hih
          cases hsy : split_amp (r ++ y) with
          | nil => exact absurd hsy (split_amp_ne_nil (r ++ y))
          | cons u us =>
            rw [List.cons_append, split_amp_cons_ne c hc (rest ++ y) u us (hih.trans hsy),
              ← hq, List.nil_append, List.cons_append,
              split_amp_cons_ne c hc (r ++ y) u us hsy]
        | cons a l2 =>
          simp only [List.cons_append, List.cons.injEq] at h
          obtain ⟨ha, hrs⟩ := h
          have hih := ih (r :: l2) q (by rw [hsr, hrs]; rfl)
          cases hsy : split_amp (q ++ y) with
          | nil => exact absurd hsy (split_amp_ne_nil (q ++ y))
          | cons u us =>
            rw [hsy] at hih
            simp only [List.cons_append] at hih
            rw [List.cons_append, split_amp_cons_ne c hc (rest ++ y) r (l2 ++ u :: us) hih,
              ← ha]
            simp

theorem drop_last_append_last (x : List Char) (xs : List (List Char)) :
    drop_last_part (x :: xs) ++ [last_part (x :: xs)] = x :: xs := by
  induction xs generalizing x with
  | nil => rfl
  | cons y ys ih =>
    have h1 : drop_last_part (x :: y :: ys) = x :: drop_last_part (y :: ys) := rfl
    have h2 : last_part (x :: y :: ys) = last_part (y :: ys) := rfl
    rw [h1, h2, List.cons_append, ih y]

theorem last_part_mem (x : List Char) (xs : List (List Char)) :
    last_part (x :: xs) ∈ x :: xs := by
  induction xs generalizing x with
  | nil => simp [last_part]
  | cons y ys ih =>
    have h2 : last_part (x :: y :: ys) = last_part (y :: ys) := rfl
    rw [h2]
    exact List.mem_cons_of_mem x (ih y)

theorem post_fold_inv (chunks : List (List Char)) :
    ∀ (st : post_state) (consumed : List Char), '&' ∉ st.pending →
    split_amp consumed = st.emitted ++ [st.pending] →
    '&' ∉ (List.foldl http_post_handler st chunks).pending ∧
    split_amp (consumed ++ chunks.flatten) =
      (List.foldl http_post_handler st chunks).emitted ++
        [(List.foldl http_post_handler st chunks).pending] := by
  induction chunks with
  | nil =>
    intro st consumed h1 h2
    constructor
    · simpa using h1
    · simpa using h2
  | cons c cs ih =>
    intro st consumed h1 h2
    rw [List.foldl_cons]
    cases hp : split_amp (st.pending ++ c) with
    | nil => exact absurd hp (split_amp_ne_nil (st.pending ++ c))
    | cons u us =>
      have hstep : http_post_handler st c =
          { pending := last_part (u :: us)
          , emitted := st.emitted ++ drop_last_part (u :: us) } := by
        rw [http_post_handler, hp]
      have hpend2 : '&' ∉ last_part (u :: us) := by
        have hm : last_part (u :: us) ∈ split_amp (st.pending ++ c) := by
          rw [hp]; exact last_part_mem u us
        exact split_amp_amp_free (st.pending ++ c) (last_part (u :: us)) hm
      have hsplit2 : split_amp (consumed ++ c) =
          (st.emitted ++ drop_last_part (u :: us)) ++ [last_part (u :: us)] := by
        rw [split_amp_append c consumed st.emitted st.pending h2, hp, List.append_assoc,
          drop_last_append_last u us]
      have hres := ih (http_post_handler st c) (consumed ++ c)
        (by rw [hstep]; exact hpend2) (by rw [hstep]; exact hsplit2)
      refine ⟨hres.1, ?_⟩
      rw [List.flatten_cons, ← List.append_assoc]
      exact hres.2

/-! ### String helper -/

theorem string_data_append (a b : String) : (a ++ b).data = a.data ++ b.data := by
  cases a
  cases b
  rfl

theorem var_msgs_ne (key : String) :
    ("variable " ++ escape_html key ++ " not found" : String) ≠
      "unable to convert value of " ++ escape_html key := by
  intro h
  have h2 := congrArg String.data h
  rw [string_data_append, string_data_append, string_data_append] at h2
  have hv : "variable ".data = 'v' :: "ariable ".data := rfl
  have hu : "unable to convert value of ".data = 'u' :: "nable to convert value of ".data := rfl
  rw [hv, hu] at h2
  simp at h2

/-! ### Claim theorems -/

/-- Claim C1: a request whose matched handler sits in the authenticated
list, carrying no valid session cookie, no valid basic-auth credentials
and no implicit local allow, receives the authentication-challenge status
(401) and the matched handler's produce_response is never invoked (the
list of invoked handlers is empty). -/
theorem C1_unauthenticated_request_challenged (httpd : kis_net_httpd) (req : http_request)
    (h : kis_net_httpd_handler)
    (hunauth : hfind (resolve_alias httpd req.url) req.method httpd.unauth_handler_vec = none)
    (hauth : hfind (resolve_alias httpd req.url) req.method httpd.handler_vec = some h)
    (hcookie : req.valid_session_cookie = false)
    (hbasic : req.valid_basic_auth = false)
    (hlocal : req.local_allow = false) :
    http_request_handler httpd req = (MHD_HTTP_UNAUTHORIZED, []) := by
  have hs : HasValidSession req = false := by
    simp [HasValidSession, hcookie, hbasic, hlocal]
  simp [http_request_handler, hunauth, hauth, hs]

theorem C1_unauthenticated_request_challenged_witness :
    http_request_handler
      { unauth_handler_vec := []
      , handler_vec := [{ hid := 7, httpd_verify_path := fun _ _ => true }]
      , alias_rewrite_map := []
      , session_map := [] }
      { url := "/devices", method := "GET"
      , valid_session_cookie := false, valid_basic_auth := false, local_allow := false } =
      (MHD_HTTP_UNAUTHORIZED, []) :=
  C1_unauthenticated_request_challenged _ _
    { hid := 7, httpd_verify_path := fun _ _ => true } rfl rfl rfl rfl rfl

/-- Claim C2: a session is valid iff now is at most last-seen plus the
validity duration, and validity is recomputed from the stored timestamps
alone on each check: any two sessions agreeing on last-seen and lifetime
agree on validity, whatever else differs (nothing is cached). -/
theorem C2_session_validity (now : Nat) (s : kis_net_httpd_session) :
    (session_valid now s = true ↔ now ≤ s.session_seen + s.session_lifetime) ∧
    (∀ s2 : kis_net_httpd_session, s.session_seen = s2.session_seen →
      s.session_lifetime = s2.session_lifetime →
      session_valid now s = session_valid now s2) := by
  constructor
  · simp [session_valid]
  · intro s2 h1 h2
    simp [session_valid, h1, h2]

theorem C2_session_validity_witness :
    session_valid 12 (kis_net_httpd_session.mk "a" 0 10 5) = true ∧
    session_valid 12 (kis_net_httpd_session.mk "a" 0 10 5) =
      session_valid 12 (kis_net_httpd_session.mk "b" 99 10 5) :=
  ⟨(C2_session_validity 12 _).1.mpr (by decide),
   (C2_session_validity 12 _).2 _ rfl rfl⟩

/-- Claim C3: session lookup returns not-found for an absent token;
removes the entry and returns not-found for a present but expired
session; and otherwise updates the stored last-seen timestamp to now and
returns the session. -/
theorem C3_find_session (now : Nat) (key : String)
    (m : List (String × kis_net_httpd_session)) :
    (map_lookup key m = none → FindSession now key m = (none, m)) ∧
    (∀ s, map_lookup key m = some s → session_valid now s = false →
      FindSession now key m = (none, map_erase key m) ∧
      ((m.map Prod.fst).Nodup → map_lookup key (FindSession now key m).2 = none)) ∧
    (∀ s, map_lookup key m = some s → session_valid now s = true →
      FindSession now key m =
        (some { s with session_seen := now },
          map_insert key { s with session_seen := now } m) ∧
      map_lookup key (FindSession now key m).2 = some { s with session_seen := now }) := by
  refine ⟨?_, ?_, ?_⟩
  · intro h
    simp [FindSession, h]
  · intro s h hv
    have he : FindSession now key m = (none, map_erase key m) := by
      simp [FindSession, h, hv]
    refine ⟨he, fun hnd => ?_⟩
    rw [he]
    exact map_lookup_erase_self key m hnd
  · intro s h hv
    have he : FindSession now key m =
        (some { s with session_seen := now },
          map_insert key { s with session_seen := now } m) := by
      simp [FindSession, h, hv]
    refine ⟨he, ?_⟩
    rw [he]
    exact map_lookup_insert_self key _ m

theorem C3_find_session_witness :
    FindSession 12 "u" [("t", kis_net_httpd_session.mk "t" 0 10 5)] =
      (none, [("t", kis_net_httpd_session.mk "t" 0 10 5)]) ∧
    FindSession 20 "t" [("t", kis_net_httpd_session.mk "t" 0 10 5)] =
      (none, map_erase "t" [("t", kis_net_httpd_session.mk "t" 0 10 5)]) ∧
    (FindSession 12 "t" [("t", kis_net_httpd_session.mk "t" 0 10 5)]).1 =
      some (kis_net_httpd_session.mk "t" 0 12 5) :=
  ⟨(C3_find_session 12 "u" _).1 (by decide),
   ((C3_find_session 20 "t" _).2.1 (kis_net_httpd_session.mk "t" 0 10 5)
     (by decide) (by decide)).1,
   by rw [((C3_find_session 12 "t" _).2.2 (kis_net_httpd_session.mk "t" 0 10 5)
     (by decide) (by decide)).1]⟩

/-- Claim C4: registration appends to the end of the corresponding list
(authenticated list for RegisterHandler, unauthenticated list for
RegisterUnauthHandler), matching scans the unauthenticated list first and
then the authenticated list, and among registered handlers that accept a
path the earliest one in scan order wins. -/
theorem C4_registration_order (httpd : kis_net_httpd) (h : kis_net_httpd_handler)
    (p m : String) :
    (RegisterHandler httpd h).handler_vec = httpd.handler_vec ++ [h] ∧
    (RegisterHandler httpd h).unauth_handler_vec = httpd.unauth_handler_vec ∧
    (RegisterUnauthHandler httpd h).unauth_handler_vec = httpd.unauth_handler_vec ++ [h] ∧
    (RegisterUnauthHandler httpd h).handler_vec = httpd.handler_vec ∧
    find_handler httpd p m = hfind p m (httpd.unauth_handler_vec ++ httpd.handler_vec) ∧
    (∀ l1 h1 l2, httpd.unauth_handler_vec ++ httpd.handler_vec = l1 ++ h1 :: l2 →
      h1.httpd_verify_path p m = true →
      (∀ h0 ∈ l1, h0.httpd_verify_path p m = false) →
      find_handler httpd p m = some h1) := by
  refine ⟨rfl, rfl, rfl, rfl, find_handler_eq_scan httpd p m, ?_⟩
  intro l1 h1 l2 hsplit hacc hrej
  rw [find_handler_eq_scan httpd p m, hsplit]
  exact hfind_first p m l1 h1 l2 hacc hrej

theorem C4_registration_order_witness :
    find_handler
      { unauth_handler_vec := [{ hid := 1, httpd_verify_path := fun _ _ => true }]
      , handler_vec := [{ hid := 2, httpd_verify_path := fun _ _ => true }]
      , alias_rewrite_map := []
      , session_map := [] } "/devices" "GET" =
      some { hid := 1, httpd_verify_path := fun _ _ => true } :=
  (C4_registration_order _ { hid := 1, httpd_verify_path := fun _ _ => true }
      "/devices" "GET").2.2.2.2.2
    [] { hid := 1, httpd_verify_path := fun _ _ => true }
    [{ hid := 2, httpd_verify_path := fun _ _ => true }]
    rfl rfl (by simp)

/-- Claim C5: delivering a POST body in chunks at any boundary through the
body-chunk callback produces, at completion, the same decoded
cached-variable mapping as the whole body at once; in particular the
chunks "a=1" and "&b=2" yield the mapping a = 1, b = 2. -/
theorem C5_post_chunking_equivalent (chunks : List (List Char)) :
    httpd_post_complete (List.foldl http_post_handler post_init chunks) =
      decode_post chunks.flatten ∧
    httpd_post_complete (List.foldl http_post_handler post_init
        [String.toList "a=1", String.toList "&b=2"]) =
      [(String.toList "a", String.toList "1"), (String.toList "b", String.toList "2")] := by
  constructor
  · have h := (post_fold_inv chunks post_init [] (by simp [post_init])
      (by simp [post_init, split_amp])).2
    simp only [List.nil_append] at h
    simp only [httpd_post_complete, decode_post, h]
  · decide

/-- Claim C6: persisting the session table and reloading it yields exactly
the non-expired sessions: a non-expired token is present after the round
trip with its whole record (creation timestamp included) unchanged, and
an expired entry is absent. -/
theorem C6_session_persistence_roundtrip (now : Nat)
    (m : List (String × kis_net_httpd_session)) (tok : String)
    (s : kis_net_httpd_session)
    (hnd : (m.map Prod.fst).Nodup) (h : map_lookup tok m = some s) :
    (session_valid now s = true →
      map_lookup tok (LoadSessions now (WriteSessions now m)) = some s) ∧
    (session_valid now s = false →
      map_lookup tok (LoadSessions now (WriteSessions now m)) = none) := by
  have hw := map_lookup_filter tok s (fun kv => session_valid now kv.2) m hnd h
  have hnd2 := nodup_keys_filter (fun kv => session_valid now kv.2) m hnd
  constructor
  · intro hv
    have h1 : map_lookup tok (m.filter (fun kv => session_valid now kv.2)) = some s := by
      rw [hw]
      simp [hv]
    have h2 := map_lookup_filter tok s (fun kv => session_valid now kv.2)
      (m.filter (fun kv => session_valid now kv.2)) hnd2 h1
    show map_lookup tok ((m.filter (fun kv => session_valid now kv.2)).filter
      (fun kv => session_valid now kv.2)) = some s
    rw [h2]
    simp [hv]
  · intro hv
    have h1 : map_lookup tok (m.filter (fun kv => session_valid now kv.2)) = none := by
      rw [hw]
      simp [hv]
    show map_lookup tok ((m.filter (fun kv => session_valid now kv.2)).filter
      (fun kv => session_valid now kv.2)) = none
    exact map_lookup_filter_none tok _ _ h1

theorem C6_session_persistence_roundtrip_witness :
    map_lookup "a" (LoadSessions 10 (WriteSessions 10
      [("a", kis_net_httpd_session.mk "a" 0 8 5), ("b", kis_net_httpd_session.mk "b" 0 2 5)])) =
      some (kis_net_httpd_session.mk "a" 0 8 5) ∧
    map_lookup "b" (LoadSessions 10 (WriteSessions 10
      [("a", kis_net_httpd_session.mk "a" 0 8 5), ("b", kis_net_httpd_session.mk "b" 0 2 5)])) =
      none :=
  ⟨(C6_session_persistence_roundtrip 10 _ "a" (kis_net_httpd_session.mk "a" 0 8 5)
      (by decide) (by decide)).1 (by decide),
   (C6_session_persistence_roundtrip 10 _ "b" (kis_net_httpd_session.mk "b" 0 2 5)
      (by decide) (by decide)).2 (by decide)⟩

/-- Claim C7: alias resolution applies at most one rewrite: a path with no
alias entry is unchanged, and a path with an alias entry resolves to the
stored destination as-is, even when the destination itself has an alias
entry (no chained rewrites). -/
theorem C7_alias_single_rewrite (httpd : kis_net_httpd) (p : String) :
    (map_lookup p httpd.alias_rewrite_map = none → resolve_alias httpd p = p) ∧
    (∀ d, map_lookup p httpd.alias_rewrite_map = some d → resolve_alias httpd p = d) := by
  constructor
  · intro h
    simp [resolve_alias, h]
  · intro d h
    simp [resolve_alias, h]

theorem C7_alias_single_rewrite_witness :
    resolve_alias
      { unauth_handler_vec := [], handler_vec := []
      , alias_rewrite_map := [("/old", "/new"), ("/new", "/newer")]
      , session_map := [] } "/old" = "/new" ∧
    map_lookup "/new"
      ({ unauth_handler_vec := [], handler_vec := []
       , alias_rewrite_map := [("/old", "/new"), ("/new", "/newer")]
       , session_map := [] } : kis_net_httpd).alias_rewrite_map = some "/newer" :=
  ⟨(C7_alias_single_rewrite _ "/old").2 "/new" (by decide), by decide⟩

/-- Claim C8: reading a typed cached POST variable raises an error both
when the key is absent and when the stored value fails to convert to the
requested type; both failures use the same mechanism (an `Except.error`
carrying a message string, mirroring `std::runtime_error`) and are told
apart only by their message text, which differs for the two cases; on
success the converted value is returned. -/
theorem C8_variable_cache_as_errors (T : Type) (read_as : String → Option T)
    (conn : kis_net_httpd_connection) (key : String) :
    (map_lookup key conn.variable_cache = none →
      variable_cache_as read_as conn key =
        Except.error ("variable " ++ escape_html key ++ " not found")) ∧
    (∀ v, map_lookup key conn.variable_cache = some v → read_as v = none →
      variable_cache_as read_as conn key =
        Except.error ("unable to convert value of " ++ escape_html key)) ∧
    (∀ v t, map_lookup key conn.variable_cache = some v → read_as v = some t →
      variable_cache_as read_as conn key = Except.ok t) ∧
    ("variable " ++ escape_html key ++ " not found" : String) ≠
      "unable to convert value of " ++ escape_html key := by
  refine ⟨?_, ?_, ?_, var_msgs_ne key⟩
  · intro h
    simp [variable_cache_as, h]
  · intro v h hr
    simp [variable_cache_as, h, hr]
  · intro v t h hr
    simp [variable_cache_as, h, hr]

theorem C8_variable_cache_as_errors_witness :
    variable_cache_as (fun s => if s = "1" then some (1 : Nat) else none)
      { kis_net_httpd_connection_init with variable_cache := [("a", "1"), ("b", "x")] }
      "a" = Except.ok 1 ∧
    variable_cache_as (fun s => if s = "1" then some (1 : Nat) else none)
      { kis_net_httpd_connection_init with variable_cache := [("a", "1"), ("b", "x")] }
      "b" = Except.error ("unable to convert value of " ++ escape_html "b") ∧
    variable_cache_as (fun s => if s = "1" then some (1 : Nat) else none)
      { kis_net_httpd_connection_init with variable_cache := [("a", "1"), ("b", "x")] }
      "c" = Except.error ("variable " ++ escape_html "c" ++ " not found") :=
  ⟨(C8_variable_cache_as_errors Nat _ _ "a").2.2.1 "1" 1 (by decide) (by decide),
   (C8_variable_cache_as_errors Nat _ _ "b").2.1 "x" (by decide) (by decide),
   (C8_variable_cache_as_errors Nat _ _ "c").1 (by decide)⟩

/-- Claim C9: a freshly constructed connection context has response status
code 200, no matched handler, no session reference, an empty
cached-variable mapping, the POST-completion flag false, and connection
type GET. -/
theorem C9_connection_ctor_defaults :
    kis_net_httpd_connection_init.httpcode = 200 ∧
    kis_net_httpd_connection_init.httpdhandler = none ∧
    kis_net_httpd_connection_init.session = none ∧
    kis_net_httpd_connection_init.variable_cache = [] ∧
    kis_net_httpd_connection_init.post_complete = false ∧
    kis_net_httpd_connection_init.connection_type = CONNECTION_GET :=
  ⟨rfl, rfl, rfl, rfl, rfl, rfl⟩

/-- Claim C10: CreateSession always creates the session record (creation
and last-seen times set to now, the given lifetime) and stores it in the
session map, whatever its two nullable arguments are; the session is
written into the connection only when the connection is non-null, the
cookie is appended to the response only when the response is non-null,
and the remaining server state is unchanged. -/
theorem C10_create_session_frame (now : Nat) (token : String) (httpd : kis_net_httpd)
    (conn : Option kis_net_httpd_connection) (resp : Option (List String)) (lt : Nat) :
    (CreateSession now token httpd conn resp lt).2.2.2 =
      kis_net_httpd_session.mk token now now lt ∧
    map_lookup token (CreateSession now token httpd conn resp lt).1.session_map =
      some (CreateSession now token httpd conn resp lt).2.2.2 ∧
    (conn = none → (CreateSession now token httpd conn resp lt).2.1 = none) ∧
    (resp = none → (CreateSession now token httpd conn resp lt).2.2.1 = none) ∧
    (∀ c, conn = some c → (CreateSession now token httpd conn resp lt).2.1 =
      some { c with session := some (CreateSession now token httpd conn resp lt).2.2.2 }) ∧
    (∀ hs, resp = some hs → (CreateSession now token httpd conn resp lt).2.2.1 =
      some (hs ++ [KIS_SESSION_COOKIE ++ "=" ++ token])) ∧
    (CreateSession now token httpd conn resp lt).1.unauth_handler_vec =
      httpd.unauth_handler_vec ∧
    (CreateSession now token httpd conn resp lt).1.handler_vec = httpd.handler_vec ∧
    (CreateSession now token httpd conn resp lt).1.alias_rewrite_map =
      httpd.alias_rewrite_map := by
  refine ⟨rfl, ?_, ?_, ?_, ?_, ?_, rfl, rfl, rfl⟩
  · exact map_lookup_insert_self token _ httpd.session_map
  · intro h
    subst h
    rfl
  · intro h
    subst h
    rfl
  · intro c h
    subst h
    rfl
  · intro hs h
    subst h
    rfl

theorem C10_create_session_frame_witness :
    map_lookup "tok" (CreateSession 5 "tok"
      { unauth_handler_vec := [], handler_vec := []
      , alias_rewrite_map := [], session_map := [] } none none 100).1.session_map =
      some (kis_net_httpd_session.mk "tok" 5 5 100) ∧
    (CreateSession 5 "tok"
      { unauth_handler_vec := [], handler_vec := []
      , alias_rewrite_map := [], session_map := [] } none none 100).2.1 = none ∧
    (CreateSession 5 "tok"
      { unauth_handler_vec := [], handler_vec := []
      , alias_rewrite_map := [], session_map := [] } none none 100).2.2.1 = none :=
  ⟨((C10_create_session_frame 5 "tok" _ none none 100).2.1).trans
     (congrArg some (C10_create_session_frame 5 "tok"
       { unauth_handler_vec := [], handler_vec := []
       , alias_rewrite_map := [], session_map := [] } none none 100).1),
   (C10_create_session_frame 5 "tok" _ none none 100).2.2.1 rfl,
   (C10_create_session_frame 5 "tok" _ none none 100).2.2.2.1 rfl⟩
